import Mathlib

/-!
Verification of the walletscope transaction reconciliation and classification
engine (src/walletscope.py) against its natural-language specification.

The Python source is shallowly embedded: dict-shaped records become structures
whose `Option String` fields model possibly-absent dict entries, Python string
falsiness (`None` or `""`) is `strEmpty (pyStr _)`, machine-external
collaborators (the 4byte signature registry, web3 address canonicalization,
datetime rendering) are function parameters, and Python exceptions become
`Option`-valued results (`none` = the call raised).
-/

namespace Walletscope

/-- Python `x or ""` on an optional string: absent values collapse to the
empty string. -/
def pyStr (o : Option String) : String := o.getD ""

/-- Python `str.lower()` (ASCII case folding, which covers every string the
program compares: hex selectors, addresses, method signatures). -/
def pyLower (s : String) : String := String.mk (s.data.map Char.toLower)

/-- Python `s[:n]` slicing (by code point). -/
def strTake (s : String) (n : Nat) : String := String.mk (s.data.take n)

/-- Python `len(s)` (code points). -/
def strLen (s : String) : Nat := s.data.length

/-- Python string truthiness test `if s:`. -/
def strEmpty (s : String) : Bool := s.data.isEmpty

/-- Python `pat in s` substring containment. -/
def strContains (s pat : String) : Bool := decide (pat.data <:+: s.data)

/-- Embedding of `guess_action` (src/walletscope.py:233-243): ordered,
case-insensitive substring rules over the resolved method text, falling back
on the native value when the method text is Python-falsy (absent or empty). -/
def guess_action (methodText : Option String) (ethValueWei : Int) : String :=
  if !strEmpty (pyStr methodText) then
    let low := pyLower (pyStr methodText)
    if strContains low "approve(" then "approve"
    else if strContains low "swap" then "swap"
    else if strContains low "deposit" || strContains low "supply"
        || strContains low "addliquidity" then "deposit"
    else if strContains low "withdraw" || strContains low "removeliquidity" then "withdraw"
    else if strContains low "borrow(" then "borrow"
    else if strContains low "repay(" then "repay"
    else "contract_call"
  else if ethValueWei > 0 then "eth_transfer" else "unknown"

/-- The action-kind decision policy as the specification words it (§4.3):
first match wins, case-insensitive substring tests, `contract_call` for any
other present method text, and the value-based fallback when no method text
is present ("no method text" follows the source's Python-falsiness notion,
so an empty method text counts as absent). Written for comparison with
`guess_action`. -/
def specActionKind (methodText : Option String) (value : Int) : String :=
  match methodText with
  | none => if value > 0 then "eth_transfer" else "unknown"
  | some m =>
    if m = "" then
      if value > 0 then "eth_transfer" else "unknown"
    else
      let low := pyLower m
      if strContains low "approve(" then "approve"
      else if strContains low "swap" then "swap"
      else if strContains low "deposit" || strContains low "supply"
          || strContains low "addliquidity" then "deposit"
      else if strContains low "withdraw" || strContains low "removeliquidity" then "withdraw"
      else if strContains low "borrow(" then "borrow"
      else if strContains low "repay(" then "repay"
      else "contract_call"

/-- A native EVM transaction as the program reads it from the per-chain feed:
the dict fields `process_evm_transactions` touches, with `timeStamp` and
`value` already carried as the integers `int(...)` parses them into. -/
structure EvmTx where
  hash : Option String
  timeStamp : Int
  fromAddr : Option String
  toAddr : Option String
  value : Int
  inputData : Option String
deriving DecidableEq

/-- A token-transfer event row from the `tokentx` feed (the fields the
program touches; `tokenDecimal` already parsed to an integer). -/
structure TokenEv where
  hash : Option String
  contractAddress : Option String
  tokenSymbol : Option String
  valueRaw : Option String
  tokenDecimal : Int
  fromAddr : Option String
  toAddr : Option String
deriving DecidableEq

/-- A classified action dict as built in `process_evm_transactions` /
`process_solana_transactions`. -/
structure Action where
  ts : String
  hash : Option String
  fromAddr : String
  toAddr : String
  protocol : Option String
  type : String
  method : Option String
  erc20_in_cnt : Nat
  erc20_out_cnt : Nat
deriving DecidableEq

/-- The `features_min` summary dict. -/
structure Features where
  unknown_calls : Nat
  approvals : Nat
  swaps : Nat
  unique_protocols : Nat
deriving DecidableEq

/-- A protocol value contributes to `unique_protocols` exactly when it is
Python-truthy (present and non-empty); this extracts such attributions. -/
def protoAttr (a : Action) : Option String :=
  match a.protocol with
  | none => none
  | some p => if p = "" then none else some p

/-- Embedding of `calculate_features` (src/walletscope.py:583-595). The
Python `sum(1 for a in ... if cond)` counters are filter lengths and the
`len({...})` set cardinality is the card of the list's finset. -/
def calculate_features (actions : List Action) : Features :=
  { unknown_calls :=
      (actions.filter (fun a =>
        (a.type == "unknown" || a.type == "contract_call") && strEmpty (pyStr a.method))).length
    approvals := (actions.filter (fun a => a.type == "approve")).length
    swaps := (actions.filter (fun a => a.type == "swap")).length
    unique_protocols := (actions.filterMap protoAttr).toFinset.card }

/-- A Solana transaction as `process_solana_transactions` reads it. -/
structure SolTx where
  timestamp : Option String
  signature : Option String
  feePayer : Option String
deriving DecidableEq

/-- Embedding of `process_solana_transactions` (src/walletscope.py:565-581). -/
def process_solana_transactions (txs : List SolTx) : List Action :=
  txs.map (fun tx =>
    { ts := pyStr tx.timestamp
      hash := some (pyStr tx.signature)
      fromAddr := pyStr tx.feePayer
      toAddr := ""
      protocol := none
      type := "sol_transaction"
      method := none
      erc20_in_cnt := 0
      erc20_out_cnt := 0 })

/-- Embedding of `calculate_solana_features` (src/walletscope.py:597-604):
a constant summary ignoring its input. -/
def calculate_solana_features (_actions : List Action) : Features :=
  { unknown_calls := 0, approvals := 0, swaps := 0, unique_protocols := 0 }

/-- The `_SIG_CACHE` dict: selector key to resolved text, where a stored
`none` records a resolved "no match". -/
abbrev SigCache := List (String × Option String)

/-- Python `key in cache` / `cache[key]` combined: `some v` when the key is
present with stored value `v`, `none` when the key is absent. -/
def cacheFind (c : SigCache) (k : String) : Option (Option String) :=
  match c with
  | [] => none
  | (k', v) :: rest => if k' = k then some v else cacheFind rest k

/-- Python `cache[key] = v` dict assignment (overwrite in place or append). -/
def cacheSet (c : SigCache) (k : String) (v : Option String) : SigCache :=
  match c with
  | [] => [(k, v)]
  | (k', v') :: rest => if k' = k then (k', v) :: rest else (k', v') :: cacheSet rest k v

/-- Embedding of `sig_text` (src/walletscope.py:216-231). `oracle` models a
successful 4byte-registry query already reduced to the first result's
`text_signature` (or `none` when the registry has no match). Returns the
resolved text, the updated cache, and the number of external lookups this
call performed. -/
def sig_text (oracle : String → Option String) (cache : SigCache) (sig4 : Option String) :
    Option String × SigCache × Nat :=
  if strEmpty (pyStr sig4) || pyStr sig4 = "0x" || strLen (pyStr sig4) < 10 then
    (none, cache, 0)
  else
    let key := pyLower (strTake (pyStr sig4) 10)
    match cacheFind cache key with
    | some v => (v, cache, 0)
    | none => (oracle key, cacheSet cache key (oracle key), 1)

/-- The grouping key of `tok_by_hash`: the event's hash, absent collapsed to
empty, lowercased. -/
def tokKey (ev : TokenEv) : String := pyLower (pyStr ev.hash)

/-- Python `d.setdefault(k, []).append(ev)` on the insertion-ordered dict. -/
def insertTok (d : List (String × List TokenEv)) (k : String) (ev : TokenEv) :
    List (String × List TokenEv) :=
  match d with
  | [] => [(k, [ev])]
  | (k', l) :: rest =>
    if k' = k then (k', l ++ [ev]) :: rest else (k', l) :: insertTok rest k ev

/-- The token-transfer indexer: the `tok_by_hash` dict built in
`process_evm_transactions` (src/walletscope.py:517-519). -/
def tok_by_hash (tok : List TokenEv) : List (String × List TokenEv) :=
  tok.foldl (fun d ev => insertTok d (tokKey ev) ev) []

/-- Python `tok_by_hash.get(h, [])`. -/
def groupFind (d : List (String × List TokenEv)) (k : String) : List TokenEv :=
  match d with
  | [] => []
  | (k', l) :: rest => if k' = k then l else groupFind rest k

/-- The selector the program extracts from the input blob before calling
`sig_text`: `inp[:10].lower() if inp and inp != "0x" else None` with
`inp = t.get("input") or "0x"` (src/walletscope.py:528-529). -/
def txSig4 (t : EvmTx) : Option String :=
  let inp := if strEmpty (pyStr t.inputData) then "0x" else pyStr t.inputData
  if !strEmpty inp && inp != "0x" then some (pyLower (strTake inp 10)) else none

/-- Protocol-registry lookup, `protocols` being the static checksummed
address-to-name dict. -/
def protoLookup (protocols : List (String × String)) (k : String) : Option String :=
  (protocols.find? (fun p => p.1 == k)).map (fun p => p.2)

/-- Protocol attribution of one transaction (src/walletscope.py:532-539):
canonicalize the truthy "to" address and look it up; a canonicalization
failure (`checksum _ = none`, the raised exception) is caught and yields no
attribution. -/
def txProto (checksum : String → Option String) (protocols : List (String × String))
    (t : EvmTx) : Option String :=
  if pyStr t.toAddr = "" then none
  else
    match checksum (pyStr t.toAddr) with
    | none => none
    | some cto => protoLookup protocols cto

/-- The incoming token-transfer count of one transaction: events indexed
under its lowercased hash whose lowercased "to" equals the lowercased holder
address (src/walletscope.py:543-550; the source collects matching item dicts
and stores the list's length, which equals this filter's length). -/
def txInCnt (tbh : List (String × List TokenEv)) (chk : String) (t : EvmTx) : Nat :=
  ((groupFind tbh (pyLower (pyStr t.hash))).filter
    (fun ev => pyLower (pyStr ev.toAddr) == pyLower chk)).length

/-- The outgoing token-transfer count of one transaction (same indexing,
comparing the event's "from" address). -/
def txOutCnt (tbh : List (String × List TokenEv)) (chk : String) (t : EvmTx) : Nat :=
  ((groupFind tbh (pyLower (pyStr t.hash))).filter
    (fun ev => pyLower (pyStr ev.fromAddr) == pyLower chk)).length

/-- The per-transaction loop body of `process_evm_transactions`, threading
the selector cache left to right. -/
def processEvmGo (oracle : String → Option String) (checksum : String → Option String)
    (jstIso : Int → String) (tbh : List (String × List TokenEv)) (chk : String)
    (protocols : List (String × String)) (cache : SigCache) :
    List EvmTx → List Action
  | [] => []
  | t :: rest =>
    let res := sig_text oracle cache (txSig4 t)
    { ts := jstIso t.timeStamp
      hash := t.hash
      fromAddr := pyStr t.fromAddr
      toAddr := pyStr t.toAddr
      protocol := txProto checksum protocols t
      type := guess_action res.1 t.value
      method := res.1
      erc20_in_cnt := txInCnt tbh chk t
      erc20_out_cnt := txOutCnt tbh chk t } ::
    processEvmGo oracle checksum jstIso tbh chk protocols res.2.1 rest

/-- Embedding of `process_evm_transactions` (src/walletscope.py:515-563).
`oracle` is the signature registry, `checksum` the address canonicalizer
(`none` = raises), `jstIso` the timestamp renderer, `cache0` the selector
cache the run starts from. -/
def process_evm_transactions (oracle : String → Option String)
    (checksum : String → Option String) (jstIso : Int → String)
    (txs : List EvmTx) (tok : List TokenEv) (chk : String)
    (protocols : List (String × String)) (cache0 : SigCache) : List Action :=
  processEvmGo oracle checksum jstIso (tok_by_hash tok) chk protocols cache0 txs

/-- The loop of `discover_token_contracts`, with `seen` the insertion-ordered
canonical keys gathered so far. A canonicalization failure on a truthy
contract address is NOT caught there: the exception propagates, modelled as
`none`. -/
def discoverGo (checksum : String → Option String) (limit : Nat) (seen : List String) :
    List TokenEv → Option (List String)
  | [] => some seen
  | ev :: rest =>
    let ca := pyStr ev.contractAddress
    if strEmpty ca then discoverGo checksum limit seen rest
    else
      match checksum ca with
      | none => none
      | some ck =>
        let seen' := if seen.contains ck then seen else seen ++ [ck]
        if limit ≤ seen'.length then some seen' else discoverGo checksum limit seen' rest

/-- Embedding of `discover_token_contracts` (src/walletscope.py:179-187). -/
def discover_token_contracts (checksum : String → Option String)
    (logs : List TokenEv) (limit : Nat) : Option (List String) :=
  discoverGo checksum limit [] logs

/-- The `actions_lastN` / `features_min` pair a ChainRecord carries. -/
structure ChainSlice where
  actions_lastN : List Action
  features_min : Features
deriving DecidableEq

/-- The action/feature assembly step of `analyze_chain_data`
(src/walletscope.py:429-432 and its BSC twin): the stored action list is the
classified list truncated to `MAX_TX_PER_CHAIN`, while `features_min` is
computed from the full pre-truncation list. -/
def analyze_chain_actions (actions : List Action) (maxTxPerChain : Nat) : ChainSlice :=
  { actions_lastN := actions.take maxTxPerChain
    features_min := calculate_features actions }

/-- The canonical addresses of the truthy contract-address events of a log,
in log order (total only when canonicalization succeeds on all of them). -/
def canonAddrs (checksum : String → Option String) (logs : List TokenEv) : List String :=
  logs.filterMap (fun ev =>
    if strEmpty (pyStr ev.contractAddress) then none else checksum (pyStr ev.contractAddress))

/-- First-seen-order deduplication continuing from an accumulator, the
specification-side description of the discovery loop's `seen` dict. -/
def dedupFrom (acc : List String) : List String → List String
  | [] => acc
  | c :: cs => if acc.contains c then dedupFrom acc cs else dedupFrom (acc ++ [c]) cs

/-- First-seen-order deduplication, as the specification words the discovery
contract ("first-seen order, deduplicated by canonical address"). -/
def firstSeenDedup (cs : List String) : List String := dedupFrom [] cs

/-- Placeholder action used with `List.getD`. -/
def defaultAction : Action :=
  { ts := "", hash := none, fromAddr := "", toAddr := "", protocol := none,
    type := "", method := none, erc20_in_cnt := 0, erc20_out_cnt := 0 }

/-- Placeholder transaction used with `List.getD`. -/
def defaultTx : EvmTx :=
  { hash := none, timeStamp := 0, fromAddr := none, toAddr := none, value := 0,
    inputData := none }

/-- A registry collaborator with no matches (used to instantiate witnesses). -/
def noOracle : String → Option String := fun _ => none

/-- A canonicalizer that accepts every address unchanged (witness data). -/
def idChecksum : String → Option String := fun s => some s

/-- A canonicalizer that rejects every address, modelling
`Web3.to_checksum_address` raising (witness data). -/
def failChecksum : String → Option String := fun _ => none

/-- A trivial timestamp renderer (witness data). -/
def noIso : Int → String := fun _ => ""

/-- A sample token-transfer event builder (witness data). -/
def mkEv (h ca t f : Option String) : TokenEv :=
  { hash := h, contractAddress := ca, tokenSymbol := none, valueRaw := none,
    tokenDecimal := 0, fromAddr := f, toAddr := t }

/-- A sample native transaction (witness data). -/
def sampleTx : EvmTx :=
  { hash := some "0xAA", timeStamp := 0, fromAddr := some "0xF",
    toAddr := some "0xT", value := 3, inputData := none }

/-- A sample classified action of kind `unknown` with no method text
(witness data). -/
def unknownAction : Action :=
  { ts := "", hash := none, fromAddr := "", toAddr := "", protocol := none,
    type := "unknown", method := none, erc20_in_cnt := 0, erc20_out_cnt := 0 }

/-- The five-event transfer log of the specification's discovery scenario:
three distinct contract addresses, in first-seen order a, b, c. -/
def scenarioLogs : List TokenEv :=
  [mkEv none (some "0xa") none none, mkEv none (some "0xb") none none,
   mkEv none (some "0xa") none none, mkEv none (some "0xc") none none,
   mkEv none (some "0xb") none none]

/-- A sample Solana transaction (witness data). -/
def sampleSolTx : SolTx := { timestamp := some "1700000000", signature := some "5sig", feePayer := some "payer" }

lemma strEmpty_eq_true_iff (s : String) : strEmpty s = true ↔ s = "" := by
  obtain ⟨data⟩ := s
  constructor
  · intro h
    have hd : data = [] := by simpa [strEmpty] using h
    subst hd; rfl
  · intro h
    have hd : data = [] := by simpa using congrArg String.data h
    simp [strEmpty, hd]

lemma strEmpty_eq_false_iff (s : String) : strEmpty s = false ↔ s ≠ "" := by
  rw [← Bool.not_eq_true, not_iff_not]
  exact strEmpty_eq_true_iff s

lemma pyFalsy_iff (m : Option String) :
    strEmpty (pyStr m) = true ↔ (m = none ∨ m = some "") := by
  cases m with
  | none => simp [pyStr, strEmpty]
  | some s => simp [pyStr, strEmpty_eq_true_iff]

/-- C1. The classifier is the first-match-wins, case-insensitive substring
policy of the specification: `approve(` before `swap` before
deposit/supply/addliquidity before withdraw/removeliquidity before
`borrow(` before `repay(`, any other present method text `contract_call`,
and for Python-falsy method text `eth_transfer` when the native value is
positive, else `unknown`. In particular `approve(address,uint256)` with a
nonzero native value classifies as `approve`, not `eth_transfer`. -/
theorem c1_action_kind_policy :
    (∀ (m : Option String) (v : Int), guess_action m v = specActionKind m v)
    ∧ guess_action (some "approve(address,uint256)") 1000000000000000000 = "approve" := by
  constructor
  · intro m v
    cases m with
    | none => rfl
    | some s =>
      by_cases hs : s = ""
      · subst hs; rfl
      · have he : strEmpty s = false := (strEmpty_eq_false_iff s).mpr hs
        simp [guess_action, specActionKind, pyStr, he, hs]
  · decide

/-- C3. The feature aggregator returns exactly the specified counters:
unknown-call-count counts actions of kind `unknown` or `contract_call`
whose method text is absent (Python-falsy), approval-count counts kind
`approve`, swap-count counts kind `swap`, distinct-protocol-count is the
cardinality of the set of non-empty protocol attributions; consequently
every counter is at most the number of actions, and actions without a
protocol attribution never contribute to the distinct-protocol count. -/
theorem c3_feature_aggregator (actions : List Action) :
    (calculate_features actions).unknown_calls
      = actions.countP (fun a => decide ((a.type = "unknown" ∨ a.type = "contract_call")
          ∧ (a.method = none ∨ a.method = some "")))
  ∧ (calculate_features actions).approvals = actions.countP (fun a => decide (a.type = "approve"))
  ∧ (calculate_features actions).swaps = actions.countP (fun a => decide (a.type = "swap"))
  ∧ (calculate_features actions).unique_protocols = (actions.filterMap protoAttr).toFinset.card
  ∧ (calculate_features actions).unknown_calls ≤ actions.length
  ∧ (calculate_features actions).approvals ≤ actions.length
  ∧ (calculate_features actions).swaps ≤ actions.length
  ∧ (calculate_features actions).unique_protocols ≤ actions.length := by
  refine ⟨?_, ?_, ?_, rfl, List.length_filter_le _ _, List.length_filter_le _ _,
    List.length_filter_le _ _, le_trans (List.toFinset_card_le _) (List.length_filterMap_le _ _)⟩
  · show (actions.filter _).length = _
    rw [List.countP_eq_length_filter]
    refine congrArg List.length (List.filter_congr ?_)
    intro a _
    rw [Bool.eq_iff_iff]
    simp [pyFalsy_iff]
  · show (actions.filter _).length = _
    rw [List.countP_eq_length_filter]
    refine congrArg List.length (List.filter_congr ?_)
    intro a _
    rw [Bool.eq_iff_iff]
    simp
  · show (actions.filter _).length = _
    rw [List.countP_eq_length_filter]
    refine congrArg List.length (List.filter_congr ?_)
    intro a _
    rw [Bool.eq_iff_iff]
    simp

/-- C9 counterexample. With a configured maximum of 1 and two classified
`unknown` actions, the stored `features_min.unknown_calls` is 2 while the
unknown-call count over the truncated `actions_lastN` list is 1: the
feature is NOT computed from the post-truncation list. -/
theorem c9_counterexample :
    ¬ ((analyze_chain_actions [unknownAction, unknownAction] 1).features_min.unknown_calls
      = (calculate_features
          (analyze_chain_actions [unknownAction, unknownAction] 1).actions_lastN).unknown_calls) := by
  decide

/-- C9 amended. The ChainRecord's action list is the classified list
truncated to the configured maximum (input order preserved, not re-sorted),
but `features_min` — including `unknown_calls` — is computed from the full
pre-truncation classified list; the post-truncation equality the claim
states holds only when the classified list already fits the maximum. -/
theorem c9_truncation_and_features (actions : List Action) (maxTxPerChain : Nat) :
    (analyze_chain_actions actions maxTxPerChain).actions_lastN = actions.take maxTxPerChain
  ∧ (analyze_chain_actions actions maxTxPerChain).features_min = calculate_features actions
  ∧ (actions.length ≤ maxTxPerChain →
      (analyze_chain_actions actions maxTxPerChain).features_min.unknown_calls
        = (calculate_features
            (analyze_chain_actions actions maxTxPerChain).actions_lastN).unknown_calls) := by
  refine ⟨rfl, rfl, fun h => ?_⟩
  simp [analyze_chain_actions, List.take_of_length_le h]

/-- C9 witness. -/
theorem c9_witness :
    ([unknownAction] : List Action).length ≤ 50
  ∧ (analyze_chain_actions [unknownAction] 50).features_min.unknown_calls
      = (calculate_features (analyze_chain_actions [unknownAction] 50).actions_lastN).unknown_calls :=
  ⟨by decide, (c9_truncation_and_features [unknownAction] 50).2.2 (by decide)⟩

/-- C10. Every action the Solana path produces has kind `sol_transaction`,
no protocol attribution, no method text, and zero directional
token-transfer counts, and the Solana feature summary is constantly zero
regardless of its input: the Solana path performs no classification or
aggregation. -/
theorem c10_solana_path (txs : List SolTx) :
    (∀ a ∈ process_solana_transactions txs,
      a.type = "sol_transaction" ∧ a.protocol = none ∧ a.method = none
        ∧ a.erc20_in_cnt = 0 ∧ a.erc20_out_cnt = 0)
    ∧ ∀ acts : List Action,
        calculate_solana_features acts
          = { unknown_calls := 0, approvals := 0, swaps := 0, unique_protocols := 0 } := by
  constructor
  · intro a ha
    simp only [process_solana_transactions, List.mem_map] at ha
    obtain ⟨tx, -, rfl⟩ := ha
    exact ⟨rfl, rfl, rfl, rfl, rfl⟩
  · intro acts; rfl

/-- C10 witness. -/
theorem c10_solana_path_witness :
    (process_solana_transactions [sampleSolTx]).getD 0 defaultAction
        ∈ process_solana_transactions [sampleSolTx]
  ∧ ((process_solana_transactions [sampleSolTx]).getD 0 defaultAction).type = "sol_transaction"
  ∧ ((process_solana_transactions [sampleSolTx]).getD 0 defaultAction).protocol = none
  ∧ ((process_solana_transactions [sampleSolTx]).getD 0 defaultAction).method = none
  ∧ ((process_solana_transactions [sampleSolTx]).getD 0 defaultAction).erc20_in_cnt = 0
  ∧ ((process_solana_transactions [sampleSolTx]).getD 0 defaultAction).erc20_out_cnt = 0
  ∧ calculate_solana_features (process_solana_transactions [sampleSolTx])
      = { unknown_calls := 0, approvals := 0, swaps := 0, unique_protocols := 0 } := by
  have hmem : (process_solana_transactions [sampleSolTx]).getD 0 defaultAction
      ∈ process_solana_transactions [sampleSolTx] := by decide
  have h := (c10_solana_path [sampleSolTx]).1 _ hmem
  exact ⟨hmem, h.1, h.2.1, h.2.2.1, h.2.2.2.1, h.2.2.2.2,
    (c10_solana_path [sampleSolTx]).2 _⟩

lemma cacheFind_cacheSet_self (c : SigCache) (k : String) (v : Option String) :
    cacheFind (cacheSet c k v) k = some v := by
  induction c with
  | nil => simp [cacheSet, cacheFind]
  | cons hd tl ih =>
    obtain ⟨k', v'⟩ := hd
    by_cases h : k' = k <;> simp [cacheSet, cacheFind, h, ih]

lemma cacheFind_cacheSet_ne (c : SigCache) (k v k') (h : k' ≠ k) :
    cacheFind (cacheSet c k v) k' = cacheFind c k' := by
  have h' : ¬ k = k' := fun he => h he.symm
  induction c with
  | nil => simp [cacheSet, cacheFind, h']
  | cons hd tl ih =>
    obtain ⟨k'', v''⟩ := hd
    by_cases h1 : k'' = k
    · subst h1
      simp [cacheSet, cacheFind, h']
    · by_cases h2 : k'' = k' <;> simp [cacheSet, cacheFind, h1, h2, h, ih]

/-- C4. The selector cache is idempotent and write-once: resolving the same
selector twice returns the same value (a cached "no match" included),
performs at most one external registry lookup across the two calls, and no
cache entry present before a call is ever overwritten or invalidated by it. -/
theorem c4_cache_idempotent (oracle : String → Option String) (cache : SigCache)
    (sig4 : Option String) :
    (sig_text oracle (sig_text oracle cache sig4).2.1 sig4).1 = (sig_text oracle cache sig4).1
  ∧ (sig_text oracle cache sig4).2.2
      + (sig_text oracle (sig_text oracle cache sig4).2.1 sig4).2.2 ≤ 1
  ∧ (∀ k v, cacheFind cache k = some v →
      cacheFind (sig_text oracle cache sig4).2.1 k = some v) := by
  by_cases hg : (strEmpty (pyStr sig4) || pyStr sig4 = "0x" || strLen (pyStr sig4) < 10) = true
  · simp [sig_text, hg]
  · rw [Bool.not_eq_true] at hg
    cases hc : cacheFind cache (pyLower (strTake (pyStr sig4) 10)) with
    | some v =>
      refine ⟨?_, ?_, ?_⟩
      · simp [sig_text, hg, hc]
      · simp [sig_text, hg, hc]
      · intro k v' hkv
        simpa [sig_text, hg, hc] using hkv
    | none =>
      refine ⟨?_, ?_, ?_⟩
      · simp [sig_text, hg, hc, cacheFind_cacheSet_self]
      · simp [sig_text, hg, hc, cacheFind_cacheSet_self]
      · intro k v' hkv
        by_cases hk : k = pyLower (strTake (pyStr sig4) 10)
        · rw [hk] at hkv
          rw [hc] at hkv
          exact absurd hkv (by simp)
        · simpa [sig_text, hg, hc, cacheFind_cacheSet_ne _ _ _ _ hk] using hkv

/-- C4 witness: a second resolution of selector blob `0xABCDEF1234` returns
the same text as the first with no further lookup, and the pre-existing
entry for another selector survives. -/
theorem c4_cache_idempotent_witness :
    cacheFind [("0x11223344", some "seen()")] "0x11223344" = some (some "seen()")
  ∧ (sig_text noOracle
        (sig_text noOracle [("0x11223344", some "seen()")] (some "0xABCDEF1234")).2.1
        (some "0xABCDEF1234")).1
      = (sig_text noOracle [("0x11223344", some "seen()")] (some "0xABCDEF1234")).1
  ∧ cacheFind
      (sig_text noOracle [("0x11223344", some "seen()")] (some "0xABCDEF1234")).2.1
      "0x11223344" = some (some "seen()") := by
  have h := c4_cache_idempotent noOracle [("0x11223344", some "seen()")] (some "0xABCDEF1234")
  exact ⟨by decide, h.1, h.2.2 "0x11223344" (some "seen()") (by decide)⟩

/-- C5. The selector resolver yields no method text, touches nothing and
performs no lookup when the blob is absent, exactly "0x", or shorter than
10 characters; otherwise it resolves the lowercased first 10 characters of
the blob: from the cache when that key is present (no external lookup),
else by one external registry lookup whose result it caches under that
key. -/
theorem c5_selector_extraction (oracle : String → Option String) (cache : SigCache)
    (sig4 : Option String) :
    (sig4 = none ∨ sig4 = some "0x" ∨ strLen (pyStr sig4) < 10 →
      sig_text oracle cache sig4 = (none, cache, 0))
  ∧ (¬ (sig4 = none ∨ sig4 = some "0x" ∨ strLen (pyStr sig4) < 10) →
      (cacheFind cache (pyLower (strTake (pyStr sig4) 10)) = none →
        sig_text oracle cache sig4
          = (oracle (pyLower (strTake (pyStr sig4) 10)),
             cacheSet cache (pyLower (strTake (pyStr sig4) 10))
               (oracle (pyLower (strTake (pyStr sig4) 10))), 1))
      ∧ ∀ v, cacheFind cache (pyLower (strTake (pyStr sig4) 10)) = some v →
          sig_text oracle cache sig4 = (v, cache, 0)) := by
  constructor
  · intro hg
    rcases hg with hg | hg | hg
    · subst hg; rfl
    · subst hg; rfl
    · simp [sig_text, hg]
  · intro hg
    push_neg at hg
    obtain ⟨hnone, h0x, hlen⟩ := hg
    have hs : ∃ s : String, sig4 = some s := by
      cases sig4 with
      | none => exact absurd rfl hnone
      | some s => exact ⟨s, rfl⟩
    obtain ⟨s, rfl⟩ := hs
    have hlen' : ¬ strLen s < 10 := by simpa [pyStr] using hlen
    have hs0 : ¬ s = "0x" := fun he => h0x (by rw [he])
    have hse : strEmpty s = false := by
      rw [strEmpty_eq_false_iff]
      intro he
      exact hlen' (by simp [he, strLen])
    constructor
    · intro hc
      simp only [pyStr, Option.getD_some] at hc ⊢
      simp [sig_text, pyStr, hse, hs0, hlen', hc]
    · intro v hc
      simp only [pyStr, Option.getD_some] at hc ⊢
      simp [sig_text, pyStr, hse, hs0, hlen', hc]

/-- C5 witness: an absent blob resolves to nothing with no lookup; blob
`0x12345678ab` (12 chars) on an empty cache resolves its lowercased
first 10 characters `0x12345678` through one registry lookup. -/
theorem c5_selector_extraction_witness :
    (none = (none : Option String) ∨ (none : Option String) = some "0x"
        ∨ strLen (pyStr none) < 10)
  ∧ sig_text noOracle [] none = (none, [], 0)
  ∧ ¬ ((some "0x12345678ab" = (none : Option String)) ∨ some "0x12345678ab" = some "0x"
        ∨ strLen (pyStr (some "0x12345678ab")) < 10)
  ∧ cacheFind [] (pyLower (strTake (pyStr (some "0x12345678ab")) 10)) = none
  ∧ sig_text noOracle [] (some "0x12345678ab")
      = (noOracle "0x12345678", cacheSet [] "0x12345678" (noOracle "0x12345678"), 1) := by
  refine ⟨Or.inl rfl, (c5_selector_extraction noOracle [] none).1 (Or.inl rfl),
    by decide, by decide, ?_⟩
  have h := ((c5_selector_extraction noOracle [] (some "0x12345678ab")).2
    (by decide)).1 (by decide)
  simpa using h

lemma groupFind_insertTok (d : List (String × List TokenEv)) (k : String) (ev : TokenEv)
    (h : String) :
    groupFind (insertTok d k ev) h
      = if k = h then groupFind d h ++ [ev] else groupFind d h := by
  induction d with
  | nil => by_cases hk : k = h <;> simp [insertTok, groupFind, hk]
  | cons hd tl ih =>
    obtain ⟨k', l⟩ := hd
    by_cases h1 : k' = k
    · subst h1
      by_cases h2 : k' = h <;> simp [insertTok, groupFind, h2]
    · by_cases h2 : k' = h
      · subst h2
        have hk : ¬ k = k' := fun he => h1 he.symm
        simp [insertTok, groupFind, h1, hk]
      · simp [insertTok, groupFind, h1, h2, ih]

lemma groupFind_foldl (tok : List TokenEv) :
    ∀ (d : List (String × List TokenEv)) (h : String),
      groupFind (tok.foldl (fun d ev => insertTok d (tokKey ev) ev) d) h
        = groupFind d h ++ tok.filter (fun ev => tokKey ev == h) := by
  induction tok with
  | nil => intro d h; simp
  | cons ev rest ih =>
    intro d h
    rw [List.foldl_cons, ih]
    rw [groupFind_insertTok]
    by_cases hk : tokKey ev = h
    · simp [List.filter_cons, hk]
    · simp [List.filter_cons, hk]

lemma groupFind_tok_by_hash (tok : List TokenEv) (h : String) :
    groupFind (tok_by_hash tok) h = tok.filter (fun ev => tokKey ev == h) := by
  rw [tok_by_hash, groupFind_foldl]
  rfl

lemma txInCnt_eq (tok : List TokenEv) (chk : String) (t : EvmTx) :
    txInCnt (tok_by_hash tok) chk t
      = (tok.filter (fun ev =>
          (tokKey ev == pyLower (pyStr t.hash))
            && (pyLower (pyStr ev.toAddr) == pyLower chk))).length := by
  rw [txInCnt, groupFind_tok_by_hash, List.filter_filter]
  exact congrArg List.length (List.filter_congr (fun a _ => Bool.and_comm _ _))

lemma txOutCnt_eq (tok : List TokenEv) (chk : String) (t : EvmTx) :
    txOutCnt (tok_by_hash tok) chk t
      = (tok.filter (fun ev =>
          (tokKey ev == pyLower (pyStr t.hash))
            && (pyLower (pyStr ev.fromAddr) == pyLower chk))).length := by
  rw [txOutCnt, groupFind_tok_by_hash, List.filter_filter]
  exact congrArg List.length (List.filter_congr (fun a _ => Bool.and_comm _ _))

lemma processEvmGo_map_hash (oracle checksum : String → Option String)
    (jstIso : Int → String) (tbh : List (String × List TokenEv)) (chk : String)
    (protocols : List (String × String)) :
    ∀ (txs : List EvmTx) (cache : SigCache),
      (processEvmGo oracle checksum jstIso tbh chk protocols cache txs).map Action.hash
        = txs.map EvmTx.hash := by
  intro txs
  induction txs with
  | nil => intro cache; rfl
  | cons t rest ih => intro cache; simp [processEvmGo, ih]

lemma processEvmGo_length (oracle checksum : String → Option String)
    (jstIso : Int → String) (tbh : List (String × List TokenEv)) (chk : String)
    (protocols : List (String × String)) (txs : List EvmTx) (cache : SigCache) :
    (processEvmGo oracle checksum jstIso tbh chk protocols cache txs).length = txs.length := by
  have h := congrArg List.length
    (processEvmGo_map_hash oracle checksum jstIso tbh chk protocols txs cache)
  simpa using h

lemma processEvmGo_getD (oracle checksum : String → Option String)
    (jstIso : Int → String) (tbh : List (String × List TokenEv)) (chk : String)
    (protocols : List (String × String)) :
    ∀ (txs : List EvmTx) (cache : SigCache) (i : Nat), i < txs.length →
      ((processEvmGo oracle checksum jstIso tbh chk protocols cache txs).getD i
          defaultAction).erc20_in_cnt = txInCnt tbh chk (txs.getD i defaultTx)
      ∧ ((processEvmGo oracle checksum jstIso tbh chk protocols cache txs).getD i
          defaultAction).erc20_out_cnt = txOutCnt tbh chk (txs.getD i defaultTx)
      ∧ ((processEvmGo oracle checksum jstIso tbh chk protocols cache txs).getD i
          defaultAction).protocol = txProto checksum protocols (txs.getD i defaultTx) := by
  intro txs
  induction txs with
  | nil => intro cache i hi; exact absurd hi (by simp)
  | cons t rest ih =>
    intro cache i hi
    cases i with
    | zero => exact ⟨rfl, rfl, rfl⟩
    | succ j =>
      have hj : j < rest.length := by simpa using hi
      simpa [processEvmGo] using ih _ j hj

/-- C2. For every transaction of the feed, the produced action's incoming
count is the number of token-transfer events whose (lowercased) hash equals
the transaction's and whose "to" address equals the holder case-insensitively,
and the outgoing count the number whose "from" address matches the holder;
an event matching both directions counts in both. -/
theorem c2_directional_token_counts (oracle checksum : String → Option String)
    (jstIso : Int → String) (txs : List EvmTx) (tok : List TokenEv) (chk : String)
    (protocols : List (String × String)) (cache0 : SigCache) (i : Nat)
    (hi : i < txs.length) :
    ((process_evm_transactions oracle checksum jstIso txs tok chk protocols cache0).getD i
        defaultAction).erc20_in_cnt
      = (tok.filter (fun ev =>
          (tokKey ev == pyLower (pyStr (txs.getD i defaultTx).hash))
            && (pyLower (pyStr ev.toAddr) == pyLower chk))).length
  ∧ ((process_evm_transactions oracle checksum jstIso txs tok chk protocols cache0).getD i
        defaultAction).erc20_out_cnt
      = (tok.filter (fun ev =>
          (tokKey ev == pyLower (pyStr (txs.getD i defaultTx).hash))
            && (pyLower (pyStr ev.fromAddr) == pyLower chk))).length := by
  have h := processEvmGo_getD oracle checksum jstIso (tok_by_hash tok) chk protocols
    txs cache0 i hi
  exact ⟨h.1.trans (txInCnt_eq tok chk _), h.2.1.trans (txOutCnt_eq tok chk _)⟩

/-- C2 witness: one transaction with hash `0xAA`, two indexed events under
the same hash (case-insensitively), holder `0xH`: incoming 2 (both events
pay the holder), outgoing 1 (one self-transfer event also spends from the
holder, counting in both directions). -/
theorem c2_directional_token_counts_witness :
    0 < ([sampleTx] : List EvmTx).length
  ∧ ((process_evm_transactions noOracle idChecksum noIso [sampleTx]
        [mkEv (some "0xaa") (some "0xc") (some "0xh") none,
         mkEv (some "0xAA") (some "0xc") (some "0xH") (some "0xH")] "0xH" [] []).getD 0
        defaultAction).erc20_in_cnt
      = ([mkEv (some "0xaa") (some "0xc") (some "0xh") none,
          mkEv (some "0xAA") (some "0xc") (some "0xH") (some "0xH")].filter (fun ev =>
          (tokKey ev == pyLower (pyStr (([sampleTx] : List EvmTx).getD 0 defaultTx).hash))
            && (pyLower (pyStr ev.toAddr) == pyLower "0xH"))).length
  ∧ ((process_evm_transactions noOracle idChecksum noIso [sampleTx]
        [mkEv (some "0xaa") (some "0xc") (some "0xh") none,
         mkEv (some "0xAA") (some "0xc") (some "0xH") (some "0xH")] "0xH" [] []).getD 0
        defaultAction).erc20_out_cnt
      = ([mkEv (some "0xaa") (some "0xc") (some "0xh") none,
          mkEv (some "0xAA") (some "0xc") (some "0xH") (some "0xH")].filter (fun ev =>
          (tokKey ev == pyLower (pyStr (([sampleTx] : List EvmTx).getD 0 defaultTx).hash))
            && (pyLower (pyStr ev.fromAddr) == pyLower "0xH"))).length
  ∧ ((process_evm_transactions noOracle idChecksum noIso [sampleTx]
        [mkEv (some "0xaa") (some "0xc") (some "0xh") none,
         mkEv (some "0xAA") (some "0xc") (some "0xH") (some "0xH")] "0xH" [] []).getD 0
        defaultAction).erc20_in_cnt = 2
  ∧ ((process_evm_transactions noOracle idChecksum noIso [sampleTx]
        [mkEv (some "0xaa") (some "0xc") (some "0xh") none,
         mkEv (some "0xAA") (some "0xc") (some "0xH") (some "0xH")] "0xH" [] []).getD 0
        defaultAction).erc20_out_cnt = 1 := by
  have h := c2_directional_token_counts noOracle idChecksum noIso [sampleTx]
    [mkEv (some "0xaa") (some "0xc") (some "0xh") none,
     mkEv (some "0xAA") (some "0xc") (some "0xH") (some "0xH")] "0xH" [] [] 0 (by decide)
  exact ⟨by decide, h.1, h.2, by decide, by decide⟩

/-- C6 counterexample. Token-contract discovery over a transfer log whose
event carries a truthy contract address that the canonicalizer rejects does
NOT treat it as "no inclusion": the canonicalization failure propagates out
of `discover_token_contracts` (modelled as `none`), instead of the event
being skipped. -/
theorem c6_counterexample :
    discover_token_contracts failChecksum [mkEv none (some "0xnotanaddress") none none] 80
      = none := by
  decide

/-- C6 amended. Classification catches canonicalization failure: a
transaction whose "to" address is absent/empty or fails to canonicalize
yields an action with no protocol attribution (never an error); but
token-contract discovery does NOT catch it: a truthy contract address that
fails to canonicalize makes `discover_token_contracts` propagate the
failure rather than skip the event. -/
theorem c6_canonicalization_failure (oracle checksum : String → Option String)
    (jstIso : Int → String) (txs : List EvmTx) (tok : List TokenEv) (chk : String)
    (protocols : List (String × String)) (cache0 : SigCache) (i : Nat)
    (hi : i < txs.length)
    (hbad : pyStr (txs.getD i defaultTx).toAddr = ""
      ∨ checksum (pyStr (txs.getD i defaultTx).toAddr) = none) :
    ((process_evm_transactions oracle checksum jstIso txs tok chk protocols cache0).getD i
        defaultAction).protocol = none
  ∧ ∀ (checksum' : String → Option String) (ev : TokenEv) (rest : List TokenEv) (limit : Nat),
      strEmpty (pyStr ev.contractAddress) = false →
      checksum' (pyStr ev.contractAddress) = none →
      discover_token_contracts checksum' (ev :: rest) limit = none := by
  constructor
  · have h := (processEvmGo_getD oracle checksum jstIso (tok_by_hash tok) chk protocols
      txs cache0 i hi).2.2
    have hp : txProto checksum protocols (txs.getD i defaultTx) = none := by
      rw [txProto]
      rcases hbad with hb | hb
      · rw [if_pos hb]
      · by_cases he : pyStr (txs.getD i defaultTx).toAddr = ""
        · rw [if_pos he]
        · rw [if_neg he, hb]
    rw [process_evm_transactions, h, hp]
  · intro checksum' ev rest limit h1 h2
    rw [discover_token_contracts, discoverGo]
    simp [h1, h2]

/-- C6 witness: a transaction whose "to" field is absent gets no protocol
attribution, and discovery over a log headed by a rejected truthy address
propagates the failure. -/
theorem c6_canonicalization_failure_witness :
    pyStr (([defaultTx] : List EvmTx).getD 0 defaultTx).toAddr = ""
  ∧ ((process_evm_transactions noOracle idChecksum noIso [defaultTx] [] "0xH" [] []).getD 0
      defaultAction).protocol = none
  ∧ strEmpty (pyStr (mkEv none (some "0xnotanaddress") none none).contractAddress) = false
  ∧ failChecksum (pyStr (mkEv none (some "0xnotanaddress") none none).contractAddress) = none
  ∧ discover_token_contracts failChecksum
      [mkEv none (some "0xnotanaddress") none none, mkEv none (some "0xb") none none] 80
      = none := by
  have h := c6_canonicalization_failure noOracle idChecksum noIso [defaultTx] [] "0xH" [] []
    0 (by decide) (Or.inl (by decide))
  exact ⟨by decide, h.1, by decide, by decide,
    h.2 failChecksum (mkEv none (some "0xnotanaddress") none none)
      [mkEv none (some "0xb") none none] 80 (by decide) (by decide)⟩

/-- C7 counterexample. The per-chain pipeline does not deduplicate the
transaction feed: if the feed hands the same transaction twice, the
classified-action list carries its hash twice, so the hashes of a produced
action list are not always pairwise distinct. -/
theorem c7_counterexample :
    ¬ ((process_evm_transactions noOracle idChecksum noIso [sampleTx, sampleTx] []
        "0xH" [] []).map Action.hash).Nodup := by
  decide

/-- C7 amended. The classifier emits exactly one action per feed
transaction, carrying that transaction's hash in order; hence the action
list's hashes are pairwise distinct whenever the feed's hashes are (which
the code assumes of the upstream feed but does not enforce). -/
theorem c7_hash_distinctness (oracle checksum : String → Option String)
    (jstIso : Int → String) (txs : List EvmTx) (tok : List TokenEv) (chk : String)
    (protocols : List (String × String)) (cache0 : SigCache) :
    (process_evm_transactions oracle checksum jstIso txs tok chk protocols cache0).map
        Action.hash = txs.map EvmTx.hash
  ∧ ((txs.map EvmTx.hash).Nodup →
      ((process_evm_transactions oracle checksum jstIso txs tok chk protocols cache0).map
        Action.hash).Nodup) := by
  have h := processEvmGo_map_hash oracle checksum jstIso (tok_by_hash tok) chk protocols
    txs cache0
  exact ⟨h, fun hn => h ▸ hn⟩

/-- C7 witness: a two-transaction feed with distinct hashes yields an
action list with distinct hashes. -/
theorem c7_hash_distinctness_witness :
    (([sampleTx, defaultTx] : List EvmTx).map EvmTx.hash).Nodup
  ∧ ((process_evm_transactions noOracle idChecksum noIso [sampleTx, defaultTx] []
      "0xH" [] []).map Action.hash).Nodup :=
  ⟨by decide, (c7_hash_distinctness noOracle idChecksum noIso [sampleTx, defaultTx] []
      "0xH" [] []).2 (by decide)⟩

lemma dedupFrom_extends (cs : List String) :
    ∀ acc : List String, ∃ t, dedupFrom acc cs = acc ++ t := by
  induction cs with
  | nil => intro acc; exact ⟨[], by simp [dedupFrom]⟩
  | cons c cs ih =>
    intro acc
    by_cases h : acc.contains c
    · obtain ⟨t, ht⟩ := ih acc
      refine ⟨t, ?_⟩
      rw [dedupFrom, if_pos h, ht]
    · obtain ⟨t, ht⟩ := ih (acc ++ [c])
      refine ⟨c :: t, ?_⟩
      rw [dedupFrom, if_neg h, ht, List.append_assoc]
      rfl

lemma dedupFrom_take_of_full (cs : List String) (acc : List String) (limit : Nat)
    (h : acc.length = limit) : (dedupFrom acc cs).take limit = acc := by
  obtain ⟨t, ht⟩ := dedupFrom_extends cs acc
  rw [ht, ← h, List.take_left]

lemma discoverGo_cons_skip {checksum : String → Option String} {limit : Nat}
    {seen : List String} {ev : TokenEv} {rest : List TokenEv}
    (h : strEmpty (pyStr ev.contractAddress) = true) :
    discoverGo checksum limit seen (ev :: rest) = discoverGo checksum limit seen rest := by
  rw [discoverGo]
  simp only [h, if_true]

lemma discoverGo_cons_mem {checksum : String → Option String} {limit : Nat}
    {seen : List String} {ev : TokenEv} {rest : List TokenEv} {ck : String}
    (h : strEmpty (pyStr ev.contractAddress) = false)
    (hck : checksum (pyStr ev.contractAddress) = some ck)
    (hm : seen.contains ck = true) :
    discoverGo checksum limit seen (ev :: rest)
      = if limit ≤ seen.length then some seen
        else discoverGo checksum limit seen rest := by
  rw [discoverGo]
  simp only [h, Bool.false_eq_true, if_false, hck, hm, if_true]

lemma discoverGo_cons_new {checksum : String → Option String} {limit : Nat}
    {seen : List String} {ev : TokenEv} {rest : List TokenEv} {ck : String}
    (h : strEmpty (pyStr ev.contractAddress) = false)
    (hck : checksum (pyStr ev.contractAddress) = some ck)
    (hm : seen.contains ck = false) :
    discoverGo checksum limit seen (ev :: rest)
      = if limit ≤ (seen ++ [ck]).length then some (seen ++ [ck])
        else discoverGo checksum limit (seen ++ [ck]) rest := by
  rw [discoverGo]
  simp only [h, Bool.false_eq_true, if_false, hck, hm]

lemma discoverGo_spec (checksum : String → Option String) (limit : Nat) :
    ∀ (logs : List TokenEv) (seen : List String), seen.length < limit →
      (∀ ev ∈ logs, strEmpty (pyStr ev.contractAddress) = false →
        (checksum (pyStr ev.contractAddress)).isSome) →
      discoverGo checksum limit seen logs
        = some ((dedupFrom seen (canonAddrs checksum logs)).take limit) := by
  intro logs
  induction logs with
  | nil =>
    intro seen hlen _
    simp [discoverGo, canonAddrs, dedupFrom, List.take_of_length_le (le_of_lt hlen)]
  | cons ev rest ih =>
    intro seen hlen hval
    have hvtail : ∀ e ∈ rest, strEmpty (pyStr e.contractAddress) = false →
        (checksum (pyStr e.contractAddress)).isSome :=
      fun e he hs => hval e (List.mem_cons_of_mem _ he) hs
    cases hstr : strEmpty (pyStr ev.contractAddress) with
    | true =>
      have hcanon : canonAddrs checksum (ev :: rest) = canonAddrs checksum rest := by
        simp [canonAddrs, List.filterMap_cons, hstr]
      rw [discoverGo_cons_skip hstr, hcanon]
      exact ih seen hlen hvtail
    | false =>
      obtain ⟨ck, hck⟩ := Option.isSome_iff_exists.mp
        (hval ev (List.mem_cons_self _ _) hstr)
      have hcanon : canonAddrs checksum (ev :: rest) = ck :: canonAddrs checksum rest := by
        simp [canonAddrs, List.filterMap_cons, hstr, hck]
      rw [hcanon]
      cases hmem : seen.contains ck with
      | true =>
        rw [discoverGo_cons_mem hstr hck hmem, if_neg (not_le.mpr hlen),
          dedupFrom, if_pos hmem]
        exact ih seen hlen hvtail
      | false =>
        have hmemP : ¬ (seen.contains ck = true) := by rw [hmem]; simp
        rw [discoverGo_cons_new hstr hck hmem, dedupFrom, if_neg hmemP]
        by_cases hlim2 : limit ≤ (seen ++ [ck]).length
        · have hl1 : (seen ++ [ck]).length = seen.length + 1 := by simp
          have heq : (seen ++ [ck]).length = limit := by
            rw [hl1] at hlim2 ⊢
            omega
          rw [if_pos hlim2, dedupFrom_take_of_full _ _ _ heq]
        · rw [if_neg hlim2]
          exact ih (seen ++ [ck]) (not_le.mp hlim2) hvtail

/-- C8 counterexample. With limit 0 the discovery loop still admits the
first truthy contract address before checking the cap, returning one
contract: the "at most `limit` addresses for every limit" claim fails at
limit 0 (the code guarantees the cap only for limits ≥ 1). -/
theorem c8_counterexample :
    discover_token_contracts idChecksum [mkEv none (some "0xa") none none] 0
      = some ["0xa"]
  ∧ ¬ (["0xa"] : List String).length ≤ 0 := by
  constructor
  · decide
  · decide

/-- C8 amended. For every limit ≥ 1 and every transfer log whose truthy
contract addresses all canonicalize, discovery returns exactly the
first-seen-order deduplication of the canonical addresses truncated to the
limit — hence at most `limit` contracts, deduplicated by canonical address,
in first-seen order. -/
theorem c8_discovery_dedup_capped (checksum : String → Option String)
    (logs : List TokenEv) (limit : Nat) (hlim : 1 ≤ limit)
    (hval : ∀ ev ∈ logs, strEmpty (pyStr ev.contractAddress) = false →
      (checksum (pyStr ev.contractAddress)).isSome) :
    discover_token_contracts checksum logs limit
      = some ((firstSeenDedup (canonAddrs checksum logs)).take limit)
  ∧ ((firstSeenDedup (canonAddrs checksum logs)).take limit).length ≤ limit := by
  constructor
  · rw [discover_token_contracts, firstSeenDedup]
    exact discoverGo_spec checksum limit logs [] hlim hval
  · rw [List.length_take]
    exact min_le_left _ _

/-- C8 witness: the specification's scenario — a 5-event log with 3
distinct contract addresses and limit 2 yields exactly the first 2 distinct
canonical addresses, in first-seen order. -/
theorem c8_discovery_dedup_capped_witness :
    1 ≤ 2
  ∧ (∀ ev ∈ scenarioLogs, strEmpty (pyStr ev.contractAddress) = false →
      (idChecksum (pyStr ev.contractAddress)).isSome)
  ∧ discover_token_contracts idChecksum scenarioLogs 2
      = some ((firstSeenDedup (canonAddrs idChecksum scenarioLogs)).take 2)
  ∧ discover_token_contracts idChecksum scenarioLogs 2 = some ["0xa", "0xb"] := by
  refine ⟨by decide, by decide, ?_, by decide⟩
  exact (c8_discovery_dedup_capped idChecksum scenarioLogs 2 (by decide) (by decide)).1

end Walletscope
